import Mathlib

/-!
# Ledger service (`main.go`): wallets, transfers and the transaction log

A shallow embedding of `main.go`.  The process-wide `db` handle becomes an
explicit `DB` value threaded through every handler, `rand` becomes an explicit
stream of draws, `time.Now()` becomes a clock reading handed to the handler, and
`float64` becomes `F64`, an integer model of IEEE-754 binary64.
-/

set_option exponentiation.threshold 4096
set_option maxRecDepth 20000

namespace Ledger

/-! ## `float64` -/

/-- IEEE-754 binary64 values.  Every finite binary64 value is an integer multiple of
`2^-1074` (the smallest subnormal), so a finite value is stored as that integer:
`fin n` stands for `n * 2^-1074`.  The sign of zero is not tracked (it is invisible to
`+`, `-`, `<`, `<=`).  Both Go and SQLite (on its `real` columns) compute with these
values. -/
inductive F64 where
  | nan : F64
  | inf (neg : Bool) : F64
  | fin (n : Int) : F64
deriving DecidableEq

namespace F64

/-- Number of units `2^-1074` in `1.0`. -/
def one : Nat := 2 ^ 1074

/-- The binary64 value of a natural number that needs no rounding (below `2^53`). -/
def ofNat (k : Nat) : F64 := fin ((k * one : Nat) : Int)

/-- The binary64 value `m * 2^(-e)` for a significand `m` and `e <= 1074`. -/
def ofScaled (m : Nat) (e : Nat) : F64 := fin ((m * 2 ^ (1074 - e) : Nat) : Int)

/-- Bit length by repeated halving; `fuel` bounds the number of halvings. -/
def bitsAux : Nat → Nat → Nat
  | 0, _ => 0
  | fuel + 1, n => if n = 0 then 0 else bitsAux fuel (n / 2) + 1

/-- Number of binary digits of `n` (`0` for `0`). -/
def bits (n : Nat) : Nat := bitsAux n n

/-- Round a magnitude (in units of `2^-1074`) to 53 significant bits, to nearest,
ties to the even significand.  `k` is the number of low bits that do not fit. -/
def roundNat (n : Nat) : Nat :=
  let k := bits n - 53
  let m := n / 2 ^ k
  let r := n % 2 ^ k
  if 2 ^ k < 2 * r ∨ (2 * r = 2 ^ k ∧ m % 2 = 1) then (m + 1) * 2 ^ k else m * 2 ^ k

/-- Round an exact result to binary64; magnitudes that round to `2^1024` or more
overflow to the infinity of the same sign. -/
def round (x : Int) : F64 :=
  let r := roundNat x.natAbs
  if 2 ^ 2098 ≤ r then inf (decide (x < 0))
  else if x < 0 then fin (-(r : Int)) else fin (r : Int)

/-- Unary minus. -/
def neg : F64 → F64
  | nan => nan
  | inf s => inf (!s)
  | fin n => fin (-n)

/-- Binary64 addition. -/
def add : F64 → F64 → F64
  | nan, _ => nan
  | _, nan => nan
  | inf a, inf b => if a = b then inf a else nan
  | inf a, fin _ => inf a
  | fin _, inf b => inf b
  | fin x, fin y => round (x + y)

/-- Binary64 subtraction. -/
def sub (a b : F64) : F64 := add a (neg b)

/-- The comparison `a < b`; false when either side is NaN. -/
def lt : F64 → F64 → Bool
  | nan, _ => false
  | _, nan => false
  | inf a, inf b => a && !b
  | inf a, fin _ => a
  | fin _, inf b => !b
  | fin x, fin y => decide (x < y)

/-- The comparison `a <= b`; false when either side is NaN. -/
def le : F64 → F64 → Bool
  | nan, _ => false
  | _, nan => false
  | inf a, inf b => a || !b
  | inf a, fin _ => a
  | fin _, inf b => !b
  | fin x, fin y => decide (x ≤ y)

/-- The value `0.0`. -/
def zero : F64 := fin 0

/-- Finite values: what a JSON number decodes to. -/
def isFinite : F64 → Bool
  | fin _ => true
  | _ => false

end F64

/-! ## Data model -/

/-- The `Wallet` row: `Address` is the primary key. -/
structure Wallet where
  Address : String
  Balance : F64
deriving DecidableEq

/-- The `Transaction` row: `ID` is the primary key; `Timestamp` is a clock reading. -/
structure Transaction where
  ID : Nat
  From : String
  To : String
  Amount : F64
  Timestamp : Nat
deriving DecidableEq

/-- The database behind the global `db` handle: the two migrated tables, rows in
insertion order. -/
structure DB where
  wallets : List Wallet
  transactions : List Transaction
deriving DecidableEq

/-- What a handler writes with `c.JSON`. -/
inductive Response where
  | error (status : Nat) (message : String)
  | transaction (tx : Transaction)
  | transactions (txs : List Transaction)
  | wallet (w : Wallet)
deriving DecidableEq

/-! ## `addressRegex` and `validateAddress` -/

/-- The character class `[a-f0-9]` of `addressRegex`, as its list of ranges. -/
def addressClass : List (Char × Char) := [('a', 'f'), ('0', '9')]

/-- The repetition count `{64}` of `addressRegex`. -/
def addressCount : Nat := 64

/-- Membership of a character in a class given by ranges. -/
def inClass (cls : List (Char × Char)) (c : Char) : Bool :=
  cls.any fun r => decide (r.1 ≤ c) && decide (c ≤ r.2)

/-- Match `[cls]{n}` at the head of the input; the result is the unread rest. -/
def matchRepeat (cls : List (Char × Char)) : Nat → List Char → Option (List Char)
  | 0, rest => some rest
  | _ + 1, [] => none
  | n + 1, c :: rest => if inClass cls c then matchRepeat cls n rest else none

/-- Matching of `addressRegex`, that is of `^[a-f0-9]{64}$`: the class repeated from
the start of the text (`^`), with nothing left unread (`$`). -/
def addressRegex (s : String) : Bool :=
  match matchRepeat addressClass addressCount s.data with
  | some [] => true
  | _ => false

/-- The function `validateAddress`. -/
def validateAddress (addr : String) : Bool := addressRegex addr

/-! ## Storage operations (GORM over SQLite) -/

/-- The query `db.First(&w, "address = ?", addr)`: the row with that address, or
`ErrRecordNotFound` (`none`). -/
def First (ws : List Wallet) (addr : String) : Option Wallet :=
  ws.find? fun w => decide (w.Address = addr)

/-- The statement `db.Model(&Wallet{}).Where("address = ?", addr).Update("balance", e)`
with `e` a `gorm.Expr` over `balance`: every row with that address gets its balance
replaced by `f balance`, computed by the database on its `real` column. -/
def UpdateBalance (ws : List Wallet) (addr : String) (f : F64 → F64) : List Wallet :=
  ws.map fun w => if w.Address = addr then { w with Balance := f w.Balance } else w

/-- The statement `db.Create(&wallet)`: a plain `INSERT`, refused when the primary key
is taken. -/
def CreateWallet (ws : List Wallet) (w : Wallet) : Except String (List Wallet) :=
  if ws.any (fun x => decide (x.Address = w.Address)) then
    .error "UNIQUE constraint failed: wallets.address"
  else .ok (ws ++ [w])

/-- Largest id of the log (`0` for the empty log). -/
def maxID (log : List Transaction) : Nat := (log.map (·.ID)).foldr max 0

/-- Largest value of SQLite's 64-bit signed `INTEGER PRIMARY KEY`. -/
def maxRowID : Nat := 2 ^ 63 - 1

/-- The statement `db.Create(&tx)`: a zero `ID` is left out of the `INSERT` and the
database assigns the next row id (one more than the largest, rows are never deleted); a
non-zero `ID` is inserted as given and refused when taken.  The stored row, with its id
filled in, is written back to `tx`. -/
def CreateTransaction (log : List Transaction) (tx : Transaction) :
    Except String (Transaction × List Transaction) :=
  if tx.ID = 0 then
    if maxRowID ≤ maxID log then .error "database or disk is full"
    else
      let saved := { tx with ID := maxID log + 1 }
      .ok (saved, log ++ [saved])
  else if maxRowID < tx.ID then .error "uint64 values with high bit set are not supported"
  else if log.any (fun t => decide (t.ID = tx.ID)) then
    .error "UNIQUE constraint failed: transactions.id"
  else .ok (tx, log ++ [tx])

/-- The write of the atomic unit at which the storage layer fails (I/O error, locked
database), if any.  The unit stops at its first failed write, so one position describes
the storage layer during one unit. -/
inductive Fault where
  | never
  | senderUpdate
  | receiverUpdate
  | recordInsert
deriving DecidableEq

/-- The error a failed write returns. -/
def storageError : String := "disk I/O error"

/-- The call `db.Transaction(fc)`: run `fc` on the transaction handle; commit what it
staged when it returns `nil`, roll everything back when it returns an error. -/
def DB.Transaction {α : Type} (db : DB) (fc : DB → Except String (α × DB)) :
    Except String α × DB :=
  match fc db with
  | .ok (a, txDB) => (.ok a, txDB)
  | .error e => (.error e, db)

/-! ## `sendTransaction` -/

/-- The closure passed to `db.Transaction` in `sendTransaction` (lines 110-139). -/
def transferUnit (fault : Fault) (tx : Transaction) (txDB : DB) :
    Except String (Transaction × DB) :=
  match First txDB.wallets tx.From with
  | none => .error "Sender wallet not found"
  | some sender =>
    if F64.lt sender.Balance tx.Amount then .error "Insufficient funds"
    else
      match First txDB.wallets tx.To with
      | none => .error "Receiver wallet not found"
      | some receiver =>
        if fault = Fault.senderUpdate then .error storageError
        else
          let ws1 := UpdateBalance txDB.wallets sender.Address (fun b => F64.sub b tx.Amount)
          if fault = Fault.receiverUpdate then .error storageError
          else
            let ws2 := UpdateBalance ws1 receiver.Address (fun b => F64.add b tx.Amount)
            if fault = Fault.recordInsert then .error storageError
            else
              match CreateTransaction txDB.transactions tx with
              | .error e => .error e
              | .ok (saved, log) => .ok (saved, { wallets := ws2, transactions := log })

/-- The handler `sendTransaction`.  `body` is the result of `c.ShouldBindJSON(&tx)`
(`none` when binding fails), `now` the reading of `time.Now()`. -/
def sendTransaction (now : Nat) (fault : Fault) (body : Option Transaction) (db : DB) :
    Response × DB :=
  match body with
  | none => (.error 400 "Invalid request body", db)
  | some tx =>
    if !validateAddress tx.From || !validateAddress tx.To then
      (.error 400 "Invalid wallet address format", db)
    else if tx.From = tx.To then
      (.error 400 "Cannot send funds to the same wallet", db)
    else if F64.le tx.Amount F64.zero then
      (.error 400 "Amount must be greater than zero", db)
    else
      match db.Transaction (transferUnit fault { tx with Timestamp := now }) with
      | (.error e, db1) => (.error 400 e, db1)
      | (.ok saved, db1) => (.transaction saved, db1)

/-! ## `getBalance` and `getLastTransactions` -/

/-- The balance a lookup of `addr` reads, if the wallet exists. -/
def balanceOf (db : DB) (addr : String) : Option F64 :=
  (First db.wallets addr).map (·.Balance)

/-- The handler `getBalance`. -/
def getBalance (address : String) (db : DB) : Response × DB :=
  if !validateAddress address then (.error 400 "Invalid wallet address format", db)
  else
    match First db.wallets address with
    | none => (.error 404 "Wallet not found", db)
    | some w => (.wallet w, db)

/-- Value of a run of ASCII decimal digits, `none` on any other character. -/
def parseDigits : List Char → Nat → Option Nat
  | [], acc => some acc
  | c :: cs, acc =>
    if '0' ≤ c ∧ c ≤ '9' then parseDigits cs (acc * 10 + (c.toNat - '0'.toNat)) else none

/-- The function `strconv.Atoi` on a 64-bit platform: an optional sign, at least one
decimal digit, and a value that fits `int`; anything else is an error (`none`). -/
def Atoi (s : String) : Option Int :=
  let signed : Bool × List Char :=
    match s.data with
    | '-' :: ds => (true, ds)
    | '+' :: ds => (false, ds)
    | ds => (false, ds)
  if signed.2 = [] then none
  else
    match parseDigits signed.2 0 with
    | none => none
    | some n =>
      let v : Int := if signed.1 then -(n : Int) else (n : Int)
      if -(2 ^ 63 : Int) ≤ v ∧ v ≤ 2 ^ 63 - 1 then some v else none

/-- Lines 167-180 of `getLastTransactions`: the limit the query will use, or `none`
when the handler answers "Invalid count parameter". -/
def resolveCount (countParam : String) : Option Int :=
  if countParam ≠ "" then
    match Atoi countParam with
    | some parsedCount =>
      if parsedCount > 0 then
        if parsedCount > 1000 then some 1000 else some parsedCount
      else none
    | none => none
  else some 10

/-- Insert one row into rows already ordered by descending timestamp. -/
def insertByTimestamp (t : Transaction) : List Transaction → List Transaction
  | [] => [t]
  | u :: us =>
    if u.Timestamp < t.Timestamp then t :: u :: us else u :: insertByTimestamp t us

/-- The clause `db.Order("timestamp desc")`; rows with equal timestamps keep their
insertion order (SQL leaves their order open). -/
def orderByTimestampDesc (log : List Transaction) : List Transaction :=
  log.foldr insertByTimestamp []

/-- The handler `getLastTransactions`; `countParam` is `c.Query("count")`, the empty
string when the parameter is absent. -/
def getLastTransactions (countParam : String) (db : DB) : Response × DB :=
  match resolveCount countParam with
  | none => (.error 400 "Invalid count parameter", db)
  | some count =>
    (.transactions ((orderByTimestampDesc db.transactions).take count.toNat), db)

/-! ## `seedWallets` and `generateWalletAddress` -/

/-- The random source: the sequence of values it will return and how many were taken. -/
structure Rand where
  draws : Nat → Nat
  pos : Nat

/-- The call `rand.Intn(n)`: the next draw, a value in `[0, n)`. -/
def Rand.Intn (r : Rand) (n : Nat) : Nat × Rand :=
  (r.draws r.pos % n, { r with pos := r.pos + 1 })

/-- The alphabet of `generateWalletAddress`. -/
def letters : String := "abcdef0123456789"

/-- Fill `n` bytes, each `letters[rand.Intn(len(letters))]` (lines 65-68). -/
def randomLetters : Nat → Rand → List Char × Rand
  | 0, r => ([], r)
  | n + 1, r =>
    let d := r.Intn letters.length
    let rest := randomLetters n d.2
    (letters.data.getD d.1 'a' :: rest.1, rest.2)

/-- The source moved on by `k` drawn addresses (64 draws each). -/
def Rand.skip (r : Rand) (k : Nat) : Rand := { r with pos := r.pos + 64 * k }

/-- The `k`-th address the source yields from where it stands (`k = 0` is the next). -/
def drawnAddress (r : Rand) (k : Nat) : String := String.mk (randomLetters 64 (r.skip k)).1

/-- The function `generateWalletAddress`: draw an address and insert its wallet, again
and again until the insert succeeds.  `fuel` bounds the number of attempts; `none`
means the loop did not finish within it. -/
def generateWalletAddress : Nat → Rand → DB → Option (String × Rand × DB)
  | 0, _, _ => none
  | fuel + 1, r, db =>
    let drawn := randomLetters 64 r
    let address := String.mk drawn.1
    match CreateWallet db.wallets { Address := address, Balance := F64.ofNat 100 } with
    | .ok ws => some (address, drawn.2, { db with wallets := ws })
    | .error _ => generateWalletAddress fuel drawn.2 db

/-- The loop of `seedWallets` (lines 55-58) with `n` iterations left: the error of
`db.Create(&wallet)` is not looked at. -/
def seedLoop (fuel : Nat) : Nat → Rand → DB → Option (Rand × DB)
  | 0, r, db => some (r, db)
  | n + 1, r, db =>
    match generateWalletAddress fuel r db with
    | none => none
    | some (address, r1, db1) =>
      match CreateWallet db1.wallets { Address := address, Balance := F64.ofNat 100 } with
      | .ok ws => seedLoop fuel n r1 { db1 with wallets := ws }
      | .error _ => seedLoop fuel n r1 db1

/-- The function `seedWallets`. -/
def seedWallets (fuel : Nat) (r : Rand) (db : DB) : Option (Rand × DB) :=
  if db.wallets.length = 0 then seedLoop fuel 10 r db else some (r, db)

/-! ## Store invariants -/

/-- Every wallet of the store has `balance >= 0`. -/
def NonNegative (db : DB) : Prop := ∀ w ∈ db.wallets, F64.le F64.zero w.Balance = true

/-- The primary key of the wallet table: no two rows share an address. -/
def Keyed (db : DB) : Prop := (db.wallets.map (·.Address)).Nodup

instance (db : DB) : Decidable (NonNegative db) := by
  unfold NonNegative
  infer_instance

instance (db : DB) : Decidable (Keyed db) := by
  unfold Keyed
  infer_instance

/-! ## Sample data -/

/-- A wallet address. -/
def addrX : String := "aaaaaaaaaaaaaaaaaaaaaaaaaaaaaaaaaaaaaaaaaaaaaaaaaaaaaaaaaaaaaaaa"

/-- A second wallet address. -/
def addrY : String := "bbbbbbbbbbbbbbbbbbbbbbbbbbbbbbbbbbbbbbbbbbbbbbbbbbbbbbbbbbbbbbbb"

/-- A third wallet address. -/
def addrZ : String := "cccccccccccccccccccccccccccccccccccccccccccccccccccccccccccccccc"

/-- A well-formed address that no sample store holds. -/
def addrW : String := "0123456789abcdef0123456789abcdef0123456789abcdef0123456789abcdef"

/-- Three wallets holding 100 each, and an empty log. -/
def sampleDB : DB :=
  { wallets := [⟨addrX, F64.ofNat 100⟩, ⟨addrY, F64.ofNat 100⟩, ⟨addrZ, F64.ofNat 100⟩],
    transactions := [] }

/-- The store `sampleDB` after 30 went from `addrX` to `addrY` at time 7. -/
def sampleDB1 : DB :=
  { wallets := [⟨addrX, F64.ofNat 70⟩, ⟨addrY, F64.ofNat 130⟩, ⟨addrZ, F64.ofNat 100⟩],
    transactions := [⟨1, addrX, addrY, F64.ofNat 30, 7⟩] }

/-- Two wallets holding `0.5` and `0.1`, and an empty log. -/
def roundingDB : DB :=
  { wallets := [⟨addrX, F64.ofScaled 1 1⟩, ⟨addrY, F64.ofScaled 3602879701896397 55⟩],
    transactions := [] }

/-- The store `roundingDB` after `0.2` went from `addrX` to `addrY` at time 7: the
balances are `0.3` and `0.30000000000000004`. -/
def roundedDB : DB :=
  { wallets := [⟨addrX, F64.ofScaled 5404319552844595 54⟩,
                ⟨addrY, F64.ofScaled 1351079888211149 52⟩],
    transactions := [⟨1, addrX, addrY, F64.ofScaled 3602879701896397 54, 7⟩] }

/-- A random source that returns every value 128 times in a row (0, then 1, ...): each
address it yields is drawn a second time right away, so every address generation after
the first meets one collision. -/
def sampleRand : Rand := { draws := fun i => i / 128, pos := 0 }

/-- The store `seedWallets` builds from the empty store with `sampleRand`. -/
def seededDB : DB :=
  { wallets :=
      [⟨"aaaaaaaaaaaaaaaaaaaaaaaaaaaaaaaaaaaaaaaaaaaaaaaaaaaaaaaaaaaaaaaa", F64.ofNat 100⟩,
       ⟨"bbbbbbbbbbbbbbbbbbbbbbbbbbbbbbbbbbbbbbbbbbbbbbbbbbbbbbbbbbbbbbbb", F64.ofNat 100⟩,
       ⟨"cccccccccccccccccccccccccccccccccccccccccccccccccccccccccccccccc", F64.ofNat 100⟩,
       ⟨"dddddddddddddddddddddddddddddddddddddddddddddddddddddddddddddddd", F64.ofNat 100⟩,
       ⟨"eeeeeeeeeeeeeeeeeeeeeeeeeeeeeeeeeeeeeeeeeeeeeeeeeeeeeeeeeeeeeeee", F64.ofNat 100⟩,
       ⟨"ffffffffffffffffffffffffffffffffffffffffffffffffffffffffffffffff", F64.ofNat 100⟩,
       ⟨"0000000000000000000000000000000000000000000000000000000000000000", F64.ofNat 100⟩,
       ⟨"1111111111111111111111111111111111111111111111111111111111111111", F64.ofNat 100⟩,
       ⟨"2222222222222222222222222222222222222222222222222222222222222222", F64.ofNat 100⟩,
       ⟨"3333333333333333333333333333333333333333333333333333333333333333", F64.ofNat 100⟩],
    transactions := [] }

/-- The store `sampleDB` after a request carrying `"id": 5` moved 30 from `addrX` to
`addrY` at time 7. -/
def sampleDB5 : DB :=
  { wallets := [⟨addrX, F64.ofNat 70⟩, ⟨addrY, F64.ofNat 130⟩, ⟨addrZ, F64.ofNat 100⟩],
    transactions := [⟨5, addrX, addrY, F64.ofNat 30, 7⟩] }

/-! ## The address validator -/

theorem inClass_addressClass (c : Char) :
    inClass addressClass c = true ↔ (('0' ≤ c ∧ c ≤ '9') ∨ ('a' ≤ c ∧ c ≤ 'f')) := by
  simp [inClass, addressClass]
  tauto

theorem matchRepeat_eq_some_nil (cls : List (Char × Char)) :
    ∀ (n : Nat) (l : List Char),
      matchRepeat cls n l = some [] ↔ l.length = n ∧ ∀ c ∈ l, inClass cls c = true := by
  intro n
  induction n with
  | zero =>
    intro l
    cases l with
    | nil => simp [matchRepeat]
    | cons c rest => simp [matchRepeat]
  | succ n ih =>
    intro l
    cases l with
    | nil => simp [matchRepeat]
    | cons c rest =>
      by_cases hc : inClass cls c = true
      · simp [matchRepeat, hc, ih rest]
      · simp [matchRepeat, hc]

theorem addressRegex_iff (s : String) :
    addressRegex s = true ↔ matchRepeat addressClass addressCount s.data = some [] := by
  unfold addressRegex
  split
  · next h => simp [h]
  · next h =>
    constructor
    · intro hf; cases hf
    · intro hm; exact absurd hm (h · )

/-- C5: `validateAddress s` is true exactly when `s` has 64 characters and every
character is one of `0-9` or `a-f`; being a total Boolean function it never fails. -/
theorem validateAddress_iff (s : String) :
    validateAddress s = true ↔
      (s.length = 64 ∧ ∀ c ∈ s.data, ('0' ≤ c ∧ c ≤ '9') ∨ ('a' ≤ c ∧ c ≤ 'f')) := by
  unfold validateAddress
  rw [addressRegex_iff, matchRepeat_eq_some_nil]
  simp only [inClass_addressClass, addressCount, String.length]

/-! ## Storage lemmas -/

theorem First_address {ws : List Wallet} {addr : String} {w : Wallet}
    (h : First ws addr = some w) : w.Address = addr := by
  have := List.find?_some h
  simpa using this

theorem First_UpdateBalance_same (f : F64 → F64) (addr : String) :
    ∀ ws : List Wallet, First (UpdateBalance ws addr f) addr =
      (First ws addr).map fun w => { w with Balance := f w.Balance } := by
  intro ws
  induction ws with
  | nil => rfl
  | cons w ws ih =>
    by_cases hw : w.Address = addr
    · simp [First, UpdateBalance, hw]
    · simp only [First, UpdateBalance] at ih
      simp [First, UpdateBalance, hw, ih]

theorem First_UpdateBalance_other (f : F64 → F64) {addr other : String} (hne : other ≠ addr) :
    ∀ ws : List Wallet, First (UpdateBalance ws addr f) other = First ws other := by
  intro ws
  induction ws with
  | nil => rfl
  | cons w ws ih =>
    simp only [First, UpdateBalance] at ih
    by_cases hw : w.Address = addr
    · have hwo : ¬ w.Address = other := fun h => hne (h.symm.trans hw)
      simp [First, UpdateBalance, hw, hwo, hne.symm, ih]
    · by_cases hwo : w.Address = other
      · subst hwo
        simp [First, UpdateBalance, hw]
      · simp [First, UpdateBalance, hw, hwo, ih]

theorem UpdateBalance_addresses (f : F64 → F64) (addr : String) (ws : List Wallet) :
    (UpdateBalance ws addr f).map (·.Address) = ws.map (·.Address) := by
  induction ws with
  | nil => rfl
  | cons w ws ih =>
    simp only [UpdateBalance] at ih
    by_cases hw : w.Address = addr <;> simp [UpdateBalance, hw, ih]

/-- Under the primary key, a row with the looked-up address is the row found. -/
theorem First_eq_of_mem {ws : List Wallet} (hkey : (ws.map (·.Address)).Nodup)
    {w : Wallet} (hw : w ∈ ws) : First ws w.Address = some w := by
  induction ws with
  | nil => cases hw
  | cons v ws ih =>
    simp only [List.map_cons, List.nodup_cons, List.mem_map, not_exists, not_and] at hkey
    rcases List.mem_cons.mp hw with h | h
    · subst h
      simp [First]
    · have hne : ¬ v.Address = w.Address := fun e => hkey.1 w h e.symm
      have := ih hkey.2 h
      simp only [First] at this
      simp [First, hne, this]

theorem UpdateBalance_nonneg {ws : List Wallet} {addr : String} {f : F64 → F64}
    (hnn : ∀ w ∈ ws, F64.le F64.zero w.Balance = true)
    (hf : ∀ w ∈ ws, w.Address = addr → F64.le F64.zero (f w.Balance) = true) :
    ∀ w ∈ UpdateBalance ws addr f, F64.le F64.zero w.Balance = true := by
  intro w hw
  simp only [UpdateBalance, List.mem_map] at hw
  obtain ⟨v, hv, rfl⟩ := hw
  by_cases hva : v.Address = addr
  · simp only [hva, if_true]
    exact hf v hv hva
  · simp only [hva, if_false]
    exact hnn v hv

theorem CreateWallet_ok {ws ws1 : List Wallet} {w : Wallet}
    (h : CreateWallet ws w = .ok ws1) :
    ws1 = ws ++ [w] ∧ w.Address ∉ ws.map (·.Address) := by
  unfold CreateWallet at h
  split at h
  · cases h
  · next hany =>
    injection h with h
    refine ⟨h.symm, ?_⟩
    simpa using hany

theorem CreateWallet_taken {ws : List Wallet} {w : Wallet}
    (h : w.Address ∈ ws.map (·.Address)) :
    CreateWallet ws w = .error "UNIQUE constraint failed: wallets.address" := by
  have : ws.any (fun x => decide (x.Address = w.Address)) = true := by
    simpa using h
  simp [CreateWallet, this]

/-- What a successful record insert did. -/
theorem CreateTransaction_ok {log log1 : List Transaction} {tx saved : Transaction}
    (h : CreateTransaction log tx = .ok (saved, log1)) :
    log1 = log ++ [saved] ∧ saved.From = tx.From ∧ saved.To = tx.To ∧
    saved.Amount = tx.Amount ∧ saved.Timestamp = tx.Timestamp ∧
    (tx.ID = 0 → saved.ID = maxID log + 1) ∧ (tx.ID ≠ 0 → saved.ID = tx.ID) := by
  unfold CreateTransaction at h
  split at h
  · next h0 =>
    split at h
    · cases h
    · injection h with h
      injection h with h1 h2
      subst h1 h2
      simp [h0]
  · next h0 =>
    split at h
    · cases h
    · split at h
      · cases h
      · injection h with h
        injection h with h1 h2
        subst h1 h2
        simp [h0]

theorem le_maxID {log : List Transaction} {t : Transaction} (h : t ∈ log) :
    t.ID ≤ maxID log := by
  induction log with
  | nil => cases h
  | cons u us ih =>
    simp only [maxID, List.map_cons, List.foldr_cons] at ih ⊢
    rcases List.mem_cons.mp h with h | h
    · subst h
      exact Nat.le_max_left _ _
    · exact (ih h).trans (Nat.le_max_right _ _)

/-! ## Binary64 lemmas -/

theorem F64.lt_zero_of_not_le {a : F64} (hnan : a ≠ F64.nan)
    (hle : F64.le a F64.zero = false) : F64.lt F64.zero a = true := by
  cases a with
  | nan => exact absurd rfl hnan
  | inf s => cases s <;> simp_all [F64.le, F64.lt, F64.zero]
  | fin n =>
    simp only [F64.le, F64.zero, decide_eq_false_iff_not, not_le] at hle
    simp [F64.lt, F64.zero, hle]

theorem F64.round_nonneg {x : Int} (hx : 0 ≤ x) : F64.le F64.zero (F64.round x) = true := by
  have hneg : ¬ x < 0 := by omega
  unfold F64.round
  simp only [hneg, decide_False, if_false]
  split
  · simp [F64.le, F64.zero]
  · simp [F64.le, F64.zero]

theorem F64.sub_nonneg {s a : F64} (hs : F64.le F64.zero s = true)
    (ha : F64.isFinite a = true) (hlt : F64.lt s a = false) :
    F64.le F64.zero (F64.sub s a) = true := by
  cases a with
  | nan => simp [F64.isFinite] at ha
  | inf b => simp [F64.isFinite] at ha
  | fin y =>
    cases s with
    | nan => simp [F64.le, F64.zero] at hs
    | inf b =>
      cases b
      · simp [F64.sub, F64.neg, F64.add, F64.le, F64.zero]
      · simp [F64.le, F64.zero] at hs
    | fin x =>
      simp only [F64.lt, decide_eq_false_iff_not, not_lt] at hlt
      simp only [F64.sub, F64.neg, F64.add]
      exact F64.round_nonneg (by omega)

theorem F64.add_nonneg {r a : F64} (hr : F64.le F64.zero r = true)
    (ha : F64.isFinite a = true) (hpos : F64.le a F64.zero = false) :
    F64.le F64.zero (F64.add r a) = true := by
  cases a with
  | nan => simp [F64.isFinite] at ha
  | inf b => simp [F64.isFinite] at ha
  | fin y =>
    cases r with
    | nan => simp [F64.le, F64.zero] at hr
    | inf b =>
      cases b
      · simp [F64.add, F64.le, F64.zero]
      · simp [F64.le, F64.zero] at hr
    | fin x =>
      simp only [F64.le, F64.zero, decide_eq_false_iff_not, not_le] at hpos
      simp only [F64.le, F64.zero, decide_eq_true_eq] at hr
      simp only [F64.add]
      exact F64.round_nonneg (by omega)

/-! ## The transfer engine -/

/-- What an accepted run of the atomic unit went through. -/
theorem transferUnit_ok {fault : Fault} {tx : Transaction} {txDB : DB}
    {saved : Transaction} {out : DB} (h : transferUnit fault tx txDB = .ok (saved, out)) :
    ∃ sender receiver log,
      First txDB.wallets tx.From = some sender ∧
      F64.lt sender.Balance tx.Amount = false ∧
      First txDB.wallets tx.To = some receiver ∧
      fault = Fault.never ∧
      CreateTransaction txDB.transactions tx = .ok (saved, log) ∧
      out = { wallets := UpdateBalance
                (UpdateBalance txDB.wallets sender.Address (fun b => F64.sub b tx.Amount))
                receiver.Address (fun b => F64.add b tx.Amount),
              transactions := log } := by
  unfold transferUnit at h
  split at h
  · cases h
  · next sender hs =>
    split at h
    · cases h
    · next hlt =>
      split at h
      · cases h
      · next receiver hr =>
        split at h
        · cases h
        · next hf1 =>
          simp only at h
          split at h
          · cases h
          · next hf2 =>
            split at h
            · cases h
            · next hf3 =>
              split at h
              · cases h
              · next sv log hc =>
                injection h with h
                injection h with h1 h2
                subst h1
                refine ⟨sender, receiver, log, hs, by simpa using hlt, hr, ?_, hc, h2.symm⟩
                cases fault <;> simp_all

/-- What an accepted request went through, stage by stage. -/
theorem sendTransaction_ok {now : Nat} {fault : Fault} {tx : Transaction} {db : DB}
    {saved : Transaction} {out : DB}
    (h : sendTransaction now fault (some tx) db = (.transaction saved, out)) :
    validateAddress tx.From = true ∧ validateAddress tx.To = true ∧ tx.From ≠ tx.To ∧
    F64.le tx.Amount F64.zero = false ∧
    transferUnit fault { tx with Timestamp := now } db = .ok (saved, out) := by
  unfold sendTransaction at h
  simp only at h
  split at h
  · cases h
  · next hv =>
    split at h
    · cases h
    · next hne =>
      split at h
      · cases h
      · next hle =>
        simp only [DB.Transaction] at h
        split at h
        · cases h
        · next sv db1 hm =>
          split at hm
          · next a txDB hok =>
            injection h with h1 h2
            injection h1 with h1
            injection hm with hm1 hm2
            injection hm1 with hm1
            subst h1 h2 hm1 hm2
            simp only [Bool.or_eq_true, Bool.not_eq_true', not_or, Bool.not_eq_false] at hv
            exact ⟨hv.1, hv.2, hne, by simpa using hle, hok⟩
          · injection hm with hm1 hm2
            cases hm1

/-- The two shapes of an answer of `sendTransaction`: an error 400 together with the
store it started from, or the recorded transaction. -/
theorem sendTransaction_cases (now : Nat) (fault : Fault) (body : Option Transaction)
    (db : DB) :
    (∃ message, sendTransaction now fault body db = (.error 400 message, db)) ∨
    (∃ saved out, sendTransaction now fault body db = (.transaction saved, out)) := by
  unfold sendTransaction
  split
  · exact Or.inl ⟨_, rfl⟩
  · next tx =>
    split
    · exact Or.inl ⟨_, rfl⟩
    · split
      · exact Or.inl ⟨_, rfl⟩
      · split
        · exact Or.inl ⟨_, rfl⟩
        · simp only [DB.Transaction]
          cases transferUnit fault { tx with Timestamp := now } db with
          | error e => exact Or.inl ⟨_, rfl⟩
          | ok p => exact Or.inr ⟨p.1, p.2, rfl⟩

/-- C3: whenever `sendTransaction` answers with an error (a failed validation, a
missing wallet, insufficient funds, or a write of the atomic unit failing after earlier
writes were staged), the store it leaves is the store it started from: every balance
and the transaction log are unchanged. -/
theorem sendTransaction_error_rollback (now : Nat) (fault : Fault)
    (body : Option Transaction) (db : DB) (status : Nat) (message : String)
    (h : (sendTransaction now fault body db).1 = .error status message) :
    (sendTransaction now fault body db).2 = db := by
  rcases sendTransaction_cases now fault body db with ⟨m, hm⟩ | ⟨saved, out, hm⟩
  · rw [hm]
  · rw [hm] at h
    cases h

/-- C3 at a concrete request: the request carries the id of a record already in the
log, so the record insert fails after both balance updates were staged; the store is
left as it was. -/
theorem sendTransaction_error_rollback_witness :
    (sendTransaction 9 Fault.never (some ⟨1, addrY, addrZ, F64.ofNat 5, 0⟩) sampleDB1).1 =
      .error 400 "UNIQUE constraint failed: transactions.id" ∧
    (sendTransaction 9 Fault.never (some ⟨1, addrY, addrZ, F64.ofNat 5, 0⟩) sampleDB1).2 =
      sampleDB1 :=
  ⟨by decide,
   sendTransaction_error_rollback 9 Fault.never (some ⟨1, addrY, addrZ, F64.ofNat 5, 0⟩)
     sampleDB1 400 "UNIQUE constraint failed: transactions.id" (by decide)⟩

/-- C4: the answer of `sendTransaction` is the error of the first failing check, in
the order address format, self-transfer, non-positive amount, sender lookup, funds,
receiver lookup.  The first three checks are decided for every store alike, funds are
checked before the receiver is looked up, and a request that passes all six checks is
accepted when no write fails and the record insert succeeds. -/
theorem sendTransaction_stage_order (now : Nat) (fault : Fault) (tx : Transaction) :
    (∀ db : DB, (validateAddress tx.From = false ∨ validateAddress tx.To = false) →
        sendTransaction now fault (some tx) db =
          (.error 400 "Invalid wallet address format", db)) ∧
    (∀ db : DB, validateAddress tx.From = true → validateAddress tx.To = true →
        tx.From = tx.To →
        sendTransaction now fault (some tx) db =
          (.error 400 "Cannot send funds to the same wallet", db)) ∧
    (∀ db : DB, validateAddress tx.From = true → validateAddress tx.To = true →
        tx.From ≠ tx.To → F64.le tx.Amount F64.zero = true →
        sendTransaction now fault (some tx) db =
          (.error 400 "Amount must be greater than zero", db)) ∧
    (∀ db : DB, validateAddress tx.From = true → validateAddress tx.To = true →
        tx.From ≠ tx.To → F64.le tx.Amount F64.zero = false →
        First db.wallets tx.From = none →
        sendTransaction now fault (some tx) db = (.error 400 "Sender wallet not found", db)) ∧
    (∀ (db : DB) (sender : Wallet), validateAddress tx.From = true →
        validateAddress tx.To = true → tx.From ≠ tx.To → F64.le tx.Amount F64.zero = false →
        First db.wallets tx.From = some sender → F64.lt sender.Balance tx.Amount = true →
        sendTransaction now fault (some tx) db = (.error 400 "Insufficient funds", db)) ∧
    (∀ (db : DB) (sender : Wallet), validateAddress tx.From = true →
        validateAddress tx.To = true → tx.From ≠ tx.To → F64.le tx.Amount F64.zero = false →
        First db.wallets tx.From = some sender → F64.lt sender.Balance tx.Amount = false →
        First db.wallets tx.To = none →
        sendTransaction now fault (some tx) db =
          (.error 400 "Receiver wallet not found", db)) ∧
    (∀ (db : DB) (sender receiver : Wallet) (saved : Transaction)
        (log : List Transaction), validateAddress tx.From = true →
        validateAddress tx.To = true → tx.From ≠ tx.To → F64.le tx.Amount F64.zero = false →
        First db.wallets tx.From = some sender → F64.lt sender.Balance tx.Amount = false →
        First db.wallets tx.To = some receiver → fault = Fault.never →
        CreateTransaction db.transactions { tx with Timestamp := now } = .ok (saved, log) →
        sendTransaction now fault (some tx) db =
          (.transaction saved,
           { wallets := UpdateBalance
               (UpdateBalance db.wallets sender.Address (fun b => F64.sub b tx.Amount))
               receiver.Address (fun b => F64.add b tx.Amount),
             transactions := log })) := by
  refine ⟨?_, ?_, ?_, ?_, ?_, ?_, ?_⟩
  · intro db h
    rcases h with h | h <;> simp [sendTransaction, h]
  · intro db h1 h2 h3
    simp [sendTransaction, h1, h2, h3]
  · intro db h1 h2 h3 h4
    simp [sendTransaction, h1, h2, h3, h4]
  · intro db h1 h2 h3 h4 h5
    simp [sendTransaction, h1, h2, h3, h4, DB.Transaction, transferUnit, h5]
  · intro db sender h1 h2 h3 h4 h5 h6
    simp [sendTransaction, h1, h2, h3, h4, DB.Transaction, transferUnit, h5, h6]
  · intro db sender h1 h2 h3 h4 h5 h6 h7
    simp [sendTransaction, h1, h2, h3, h4, DB.Transaction, transferUnit, h5, h6, h7]
  · intro db sender receiver saved log h1 h2 h3 h4 h5 h6 h7 h8 h9
    simp [sendTransaction, h1, h2, h3, h4, DB.Transaction, transferUnit, h5, h6, h7, h8, h9]

/-- C4 at concrete requests against the three-wallet store: a 10-character address
(for the empty store as well), a self-transfer, a zero amount, an unknown sender,
150 from a wallet holding 100 to an unknown receiver, 30 to an unknown receiver, and an
accepted transfer of 30. -/
theorem sendTransaction_stage_order_witness :
    sendTransaction 7 Fault.never (some ⟨0, addrX, "abcdef0123", F64.ofNat 30, 0⟩) ⟨[], []⟩ =
      (.error 400 "Invalid wallet address format", ⟨[], []⟩) ∧
    sendTransaction 7 Fault.never (some ⟨0, addrX, addrX, F64.ofNat 0, 0⟩) sampleDB =
      (.error 400 "Cannot send funds to the same wallet", sampleDB) ∧
    sendTransaction 7 Fault.never (some ⟨0, addrX, addrY, F64.ofNat 0, 0⟩) sampleDB =
      (.error 400 "Amount must be greater than zero", sampleDB) ∧
    sendTransaction 7 Fault.never (some ⟨0, addrW, addrY, F64.ofNat 30, 0⟩) sampleDB =
      (.error 400 "Sender wallet not found", sampleDB) ∧
    sendTransaction 7 Fault.never (some ⟨0, addrX, addrW, F64.ofNat 150, 0⟩) sampleDB =
      (.error 400 "Insufficient funds", sampleDB) ∧
    sendTransaction 7 Fault.never (some ⟨0, addrX, addrW, F64.ofNat 30, 0⟩) sampleDB =
      (.error 400 "Receiver wallet not found", sampleDB) ∧
    sendTransaction 7 Fault.never (some ⟨0, addrX, addrY, F64.ofNat 30, 0⟩) sampleDB =
      (.transaction ⟨1, addrX, addrY, F64.ofNat 30, 7⟩,
       ⟨[⟨addrX, F64.ofNat 70⟩, ⟨addrY, F64.ofNat 130⟩, ⟨addrZ, F64.ofNat 100⟩],
        [⟨1, addrX, addrY, F64.ofNat 30, 7⟩]⟩) :=
  ⟨(sendTransaction_stage_order 7 Fault.never ⟨0, addrX, "abcdef0123", F64.ofNat 30, 0⟩).1
      ⟨[], []⟩ (Or.inr (by decide)),
   (sendTransaction_stage_order 7 Fault.never ⟨0, addrX, addrX, F64.ofNat 0, 0⟩).2.1
      sampleDB (by decide) (by decide) rfl,
   (sendTransaction_stage_order 7 Fault.never ⟨0, addrX, addrY, F64.ofNat 0, 0⟩).2.2.1
      sampleDB (by decide) (by decide) (by decide) (by decide),
   (sendTransaction_stage_order 7 Fault.never ⟨0, addrW, addrY, F64.ofNat 30, 0⟩).2.2.2.1
      sampleDB (by decide) (by decide) (by decide) (by decide) (by decide),
   (sendTransaction_stage_order 7 Fault.never ⟨0, addrX, addrW, F64.ofNat 150, 0⟩).2.2.2.2.1
      sampleDB ⟨addrX, F64.ofNat 100⟩ (by decide) (by decide) (by decide) (by decide)
      (by decide) (by decide),
   (sendTransaction_stage_order 7 Fault.never ⟨0, addrX, addrW, F64.ofNat 30, 0⟩).2.2.2.2.2.1
      sampleDB ⟨addrX, F64.ofNat 100⟩ (by decide) (by decide) (by decide) (by decide)
      (by decide) (by decide) (by decide),
   (sendTransaction_stage_order 7 Fault.never ⟨0, addrX, addrY, F64.ofNat 30, 0⟩).2.2.2.2.2.2
      sampleDB ⟨addrX, F64.ofNat 100⟩ ⟨addrY, F64.ofNat 100⟩
      ⟨1, addrX, addrY, F64.ofNat 30, 7⟩ [⟨1, addrX, addrY, F64.ofNat 30, 7⟩]
      (by decide) (by decide) (by decide) (by decide) (by decide) (by decide) (by decide)
      rfl rfl⟩

/-- C7: an accepted transfer appends exactly one record to the log, leaving the
earlier records as they were; the record carries the request's `from`, `to` and
`amount` and the server's clock reading (not the request's timestamp), it is the
transaction returned to the caller, and it has `amount > 0` and `from != to`.  The
amount of a request is a number (JSON cannot carry NaN). -/
theorem sendTransaction_records_one (now : Nat) (fault : Fault) (tx : Transaction) (db : DB)
    (saved : Transaction) (out : DB) (hjson : tx.Amount ≠ F64.nan)
    (h : sendTransaction now fault (some tx) db = (.transaction saved, out)) :
    out.transactions = db.transactions ++ [saved] ∧
    saved.From = tx.From ∧ saved.To = tx.To ∧ saved.Amount = tx.Amount ∧
    saved.Timestamp = now ∧
    F64.lt F64.zero saved.Amount = true ∧ saved.From ≠ saved.To := by
  obtain ⟨_, _, hne, hle, hu⟩ := sendTransaction_ok h
  obtain ⟨sender, receiver, log, _, _, _, _, hc, hout⟩ := transferUnit_ok hu
  obtain ⟨hlog, hf, ht, ha, hts, _, _⟩ := CreateTransaction_ok hc
  simp only at hf ht ha hts hlog
  refine ⟨by rw [hout]; exact hlog, hf, ht, ha, hts, ?_, ?_⟩
  · rw [ha]; exact F64.lt_zero_of_not_le hjson hle
  · rw [hf, ht]; exact hne

/-- C7 at the transfer of 30 from `addrX` to `addrY`: the request's timestamp 99 is
replaced by the clock reading 7. -/
theorem sendTransaction_records_one_witness :
    sampleDB1.transactions = sampleDB.transactions ++ [⟨1, addrX, addrY, F64.ofNat 30, 7⟩] ∧
    (⟨1, addrX, addrY, F64.ofNat 30, 7⟩ : Transaction).From = addrX ∧
    (⟨1, addrX, addrY, F64.ofNat 30, 7⟩ : Transaction).To = addrY ∧
    (⟨1, addrX, addrY, F64.ofNat 30, 7⟩ : Transaction).Amount = F64.ofNat 30 ∧
    (⟨1, addrX, addrY, F64.ofNat 30, 7⟩ : Transaction).Timestamp = 7 ∧
    F64.lt F64.zero (⟨1, addrX, addrY, F64.ofNat 30, 7⟩ : Transaction).Amount = true ∧
    (⟨1, addrX, addrY, F64.ofNat 30, 7⟩ : Transaction).From ≠
      (⟨1, addrX, addrY, F64.ofNat 30, 7⟩ : Transaction).To :=
  sendTransaction_records_one 7 Fault.never ⟨0, addrX, addrY, F64.ofNat 30, 99⟩ sampleDB
    ⟨1, addrX, addrY, F64.ofNat 30, 7⟩ sampleDB1 (by decide) (by decide)

/-- C1, as the code has it: an accepted transfer replaces the sender's balance by the
binary64 difference `balance - amount` and the receiver's balance by the binary64 sum
`balance + amount`, keeps the set of wallets, and leaves the balance of every other
wallet unchanged; when neither operation rounds, the two new balances add up to
exactly what the two old balances added up to. -/
theorem sendTransaction_moves_amount (now : Nat) (fault : Fault) (tx : Transaction) (db : DB)
    (saved : Transaction) (out : DB)
    (h : sendTransaction now fault (some tx) db = (.transaction saved, out)) :
    ∃ s r : F64,
      balanceOf db tx.From = some s ∧ balanceOf db tx.To = some r ∧
      balanceOf out tx.From = some (F64.sub s tx.Amount) ∧
      balanceOf out tx.To = some (F64.add r tx.Amount) ∧
      out.wallets.map (·.Address) = db.wallets.map (·.Address) ∧
      (∀ a : String, a ≠ tx.From → a ≠ tx.To → balanceOf out a = balanceOf db a) ∧
      (∀ x y z : Int, s = F64.fin x → r = F64.fin y → tx.Amount = F64.fin z →
        F64.round (x - z) = F64.fin (x - z) → F64.round (y + z) = F64.fin (y + z) →
        balanceOf out tx.From = some (F64.fin (x - z)) ∧
        balanceOf out tx.To = some (F64.fin (y + z)) ∧
        (x - z) + (y + z) = x + y) := by
  obtain ⟨_, _, hne, _, hu⟩ := sendTransaction_ok h
  obtain ⟨sender, receiver, log, hs, _, hr, _, _, hout⟩ := transferUnit_ok hu
  simp only at hs hr hout
  have hsa := First_address hs
  have hra := First_address hr
  have hfrom : balanceOf out tx.From = some (F64.sub sender.Balance tx.Amount) := by
    rw [hout, hsa, hra]
    simp only [balanceOf]
    rw [First_UpdateBalance_other _ hne, First_UpdateBalance_same, hs]
    rfl
  have hto : balanceOf out tx.To = some (F64.add receiver.Balance tx.Amount) := by
    rw [hout, hsa, hra]
    simp only [balanceOf]
    rw [First_UpdateBalance_same, First_UpdateBalance_other _ (Ne.symm hne), hr]
    rfl
  refine ⟨sender.Balance, receiver.Balance, by simp [balanceOf, hs], by simp [balanceOf, hr],
    hfrom, hto, ?_, ?_, ?_⟩
  · rw [hout]
    simp only [UpdateBalance_addresses]
  · intro a ha1 ha2
    rw [hout, hsa, hra]
    simp only [balanceOf]
    rw [First_UpdateBalance_other _ ha2, First_UpdateBalance_other _ ha1]
  · intro x y z hx hy hz hrx hry
    refine ⟨?_, ?_, by ring⟩
    · rw [hfrom, hx, hz]
      simp only [F64.sub, F64.neg, F64.add]
      rw [← sub_eq_add_neg, hrx]
    · rw [hto, hy, hz]
      simp only [F64.add]
      rw [hry]

/-- C1 as the code has it, at the transfer of 30 between two wallets holding 100:
the balances become 70 and 130 and the third wallet keeps its 100. -/
theorem sendTransaction_moves_amount_witness :
    ∃ s r : F64,
      balanceOf sampleDB addrX = some s ∧ balanceOf sampleDB addrY = some r ∧
      balanceOf sampleDB1 addrX = some (F64.sub s (F64.ofNat 30)) ∧
      balanceOf sampleDB1 addrY = some (F64.add r (F64.ofNat 30)) ∧
      sampleDB1.wallets.map (·.Address) = sampleDB.wallets.map (·.Address) ∧
      (∀ a : String, a ≠ addrX → a ≠ addrY → balanceOf sampleDB1 a = balanceOf sampleDB a) ∧
      (∀ x y z : Int, s = F64.fin x → r = F64.fin y → F64.ofNat 30 = F64.fin z →
        F64.round (x - z) = F64.fin (x - z) → F64.round (y + z) = F64.fin (y + z) →
        balanceOf sampleDB1 addrX = some (F64.fin (x - z)) ∧
        balanceOf sampleDB1 addrY = some (F64.fin (y + z)) ∧
        (x - z) + (y + z) = x + y) :=
  sendTransaction_moves_amount 7 Fault.never ⟨0, addrX, addrY, F64.ofNat 30, 0⟩ sampleDB
    ⟨1, addrX, addrY, F64.ofNat 30, 7⟩ sampleDB1 (by decide)

/-- C1 fails as stated: with balances `0.5` and `0.1`, the transfer of `0.2` is
accepted and leaves `0.3` and `0.30000000000000004`.  The binary64 sum of the new
balances (`0.6000000000000001`) is not the binary64 sum of the old ones (`0.6`), and
neither are the exact sums equal (counted in units of `2^-1074`). -/
theorem conservation_counterexample :
    sendTransaction 7 Fault.never
        (some ⟨0, addrX, addrY, F64.ofScaled 3602879701896397 54, 0⟩) roundingDB =
      (.transaction ⟨1, addrX, addrY, F64.ofScaled 3602879701896397 54, 7⟩, roundedDB) ∧
    balanceOf roundingDB addrX = some (F64.ofScaled 1 1) ∧
    balanceOf roundingDB addrY = some (F64.ofScaled 3602879701896397 55) ∧
    balanceOf roundedDB addrX = some (F64.ofScaled 5404319552844595 54) ∧
    balanceOf roundedDB addrY = some (F64.ofScaled 1351079888211149 52) ∧
    F64.add (F64.ofScaled 5404319552844595 54) (F64.ofScaled 1351079888211149 52) ≠
      F64.add (F64.ofScaled 1 1) (F64.ofScaled 3602879701896397 55) ∧
    (5404319552844595 * 2 ^ (1074 - 54) + 1351079888211149 * 2 ^ (1074 - 52) : Nat) ≠
      1 * 2 ^ (1074 - 1) + 3602879701896397 * 2 ^ (1074 - 55) := by
  refine ⟨by decide, by decide, by decide, by decide, by decide, by decide, by decide⟩

/-- C6 fails on the code: on a log holding id 5, a request whose body carries
`"id": 3` is accepted and recorded under id 3, which is not greater than the ids
already in the log; the store with id 5 is itself reached from `sampleDB` by a request
carrying `"id": 5`. -/
theorem sendTransaction_keeps_request_id :
    sendTransaction 7 Fault.never (some ⟨5, addrX, addrY, F64.ofNat 30, 0⟩) sampleDB =
      (.transaction ⟨5, addrX, addrY, F64.ofNat 30, 7⟩, sampleDB5) ∧
    sendTransaction 8 Fault.never (some ⟨3, addrY, addrZ, F64.ofNat 10, 0⟩) sampleDB5 =
      (.transaction ⟨3, addrY, addrZ, F64.ofNat 10, 8⟩,
       ⟨[⟨addrX, F64.ofNat 70⟩, ⟨addrY, F64.ofNat 120⟩, ⟨addrZ, F64.ofNat 110⟩],
        [⟨5, addrX, addrY, F64.ofNat 30, 7⟩, ⟨3, addrY, addrZ, F64.ofNat 10, 8⟩]⟩) ∧
    ¬ (∀ t ∈ sampleDB5.transactions, t.ID < 3) := by
  refine ⟨by decide, by decide, by decide⟩

/-- What the code keeps of unique, increasing ids: the id of a new record is not the id
of any record already in the log; when the request carries no id (id 0) it is greater
than all of them, and otherwise it is the id the request carries. -/
theorem sendTransaction_id_fresh {now : Nat} {fault : Fault} {tx : Transaction} {db : DB}
    {saved : Transaction} {out : DB}
    (h : sendTransaction now fault (some tx) db = (.transaction saved, out)) :
    (∀ t ∈ db.transactions, t.ID ≠ saved.ID) ∧
    (tx.ID = 0 → ∀ t ∈ db.transactions, t.ID < saved.ID) ∧
    (tx.ID ≠ 0 → saved.ID = tx.ID) := by
  obtain ⟨_, _, _, _, hu⟩ := sendTransaction_ok h
  obtain ⟨sender, receiver, log, _, _, _, _, hc, _⟩ := transferUnit_ok hu
  obtain ⟨_, _, _, _, _, h0, h1⟩ := CreateTransaction_ok hc
  simp only at h0 h1 hc
  have hlt : tx.ID = 0 → ∀ t ∈ db.transactions, t.ID < saved.ID := by
    intro hz t ht
    rw [h0 hz]
    exact Nat.lt_succ_of_le (le_maxID ht)
  refine ⟨?_, hlt, h1⟩
  intro t ht
  by_cases hz : tx.ID = 0
  · exact Nat.ne_of_lt (hlt hz t ht)
  · rw [h1 hz]
    unfold CreateTransaction at hc
    simp only [hz, if_false] at hc
    split at hc
    · cases hc
    · split at hc
      · cases hc
      · next hany =>
        intro heq
        apply hany
        simp only [List.any_eq_true, decide_eq_true_eq]
        exact ⟨t, ht, heq⟩

/-- The primary key survives every request: `sendTransaction` neither adds nor removes
a wallet row. -/
theorem sendTransaction_keyed (now : Nat) (fault : Fault) (body : Option Transaction)
    (db : DB) (hkey : Keyed db) : Keyed (sendTransaction now fault body db).2 := by
  rcases sendTransaction_cases now fault body db with ⟨m, hm⟩ | ⟨saved, out, hres⟩
  · rw [hm]
    exact hkey
  · cases body with
    | none => simp [sendTransaction] at hres
    | some tx =>
      obtain ⟨_, _, _, _, hu⟩ := sendTransaction_ok hres
      obtain ⟨sender, receiver, log, _, _, _, _, _, hout⟩ := transferUnit_ok hu
      rw [hres]
      simp only [Keyed, hout, UpdateBalance_addresses]
      exact hkey

/-! ## Count resolution in `getLastTransactions` -/

/-- C8: the limit used by `getLastTransactions` is 10 for an absent (empty) `count`,
`min n 1000` when `count` parses as an integer `n > 0`, and the request is answered
with "Invalid count parameter", whatever the log holds, when it parses as `n <= 0` or
does not parse; a limit that is resolved lies between 1 and 1000 and is the number of
rows the query is limited to. -/
theorem getLastTransactions_count (countParam : String) (db : DB) :
    (countParam = "" → resolveCount countParam = some 10) ∧
    (∀ n : Int, countParam ≠ "" → Atoi countParam = some n → 0 < n →
        resolveCount countParam = some (min n 1000)) ∧
    (countParam ≠ "" → (Atoi countParam = none ∨ ∃ n : Int, Atoi countParam = some n ∧ n ≤ 0) →
        resolveCount countParam = none ∧
        getLastTransactions countParam db = (.error 400 "Invalid count parameter", db)) ∧
    (∀ limit : Int, resolveCount countParam = some limit →
        1 ≤ limit ∧ limit ≤ 1000 ∧
        getLastTransactions countParam db =
          (.transactions ((orderByTimestampDesc db.transactions).take limit.toNat), db)) := by
  refine ⟨?_, ?_, ?_, ?_⟩
  · intro h
    simp [resolveCount, h]
  · intro n hne hn hpos
    by_cases hbig : n > 1000
    · have : min n 1000 = 1000 := by omega
      simp [resolveCount, hne, hn, hpos, hbig, this]
    · have : min n 1000 = n := by omega
      simp [resolveCount, hne, hn, hpos, hbig, this]
  · intro hne h
    have hres : resolveCount countParam = none := by
      rcases h with h | ⟨n, hn, hle⟩
      · simp [resolveCount, hne, h]
      · have : ¬ n > 0 := by omega
        simp [resolveCount, hne, hn, this]
    exact ⟨hres, by simp [getLastTransactions, hres]⟩
  · intro limit h
    have hget : getLastTransactions countParam db =
        (.transactions ((orderByTimestampDesc db.transactions).take limit.toNat), db) := by
      simp [getLastTransactions, h]
    refine ⟨?_, ?_, hget⟩
    · unfold resolveCount at h
      split at h
      · split at h
        · split at h
          · split at h <;> (injection h with h; omega)
          · cases h
        · cases h
      · injection h with h; omega
    · unfold resolveCount at h
      split at h
      · split at h
        · split at h
          · split at h <;> (injection h with h; omega)
          · cases h
        · cases h
      · injection h with h; omega

/-- C8 at concrete parameters: absent, clamped, plain, signed, zero, negative, not a
number, and too large for `int`. -/
theorem getLastTransactions_count_witness :
    resolveCount "" = some 10 ∧ resolveCount "5000" = some 1000 ∧
    resolveCount "5" = some 5 ∧ resolveCount "+7" = some 7 ∧
    resolveCount "0" = none ∧ resolveCount "-3" = none ∧ resolveCount "abc" = none ∧
    resolveCount "99999999999999999999" = none :=
  ⟨(getLastTransactions_count "" ⟨[], []⟩).1 rfl,
   (getLastTransactions_count "5000" ⟨[], []⟩).2.1 5000 (by decide) (by decide) (by decide),
   (getLastTransactions_count "5" ⟨[], []⟩).2.1 5 (by decide) (by decide) (by decide),
   (getLastTransactions_count "+7" ⟨[], []⟩).2.1 7 (by decide) (by decide) (by decide),
   ((getLastTransactions_count "0" ⟨[], []⟩).2.2.1 (by decide)
      (Or.inr ⟨0, by decide, by decide⟩)).1,
   ((getLastTransactions_count "-3" ⟨[], []⟩).2.2.1 (by decide)
      (Or.inr ⟨-3, by decide, by decide⟩)).1,
   ((getLastTransactions_count "abc" ⟨[], []⟩).2.2.1 (by decide) (Or.inl (by decide))).1,
   ((getLastTransactions_count "99999999999999999999" ⟨[], []⟩).2.2.1 (by decide)
      (Or.inl (by decide))).1⟩

/-! ## Provisioning -/

theorem letters_inClass (k : Nat) :
    inClass addressClass (letters.data.getD (k % letters.length) 'a') = true := by
  have hall : ∀ i : Fin 16, inClass addressClass (letters.data.getD i.val 'a') = true := by
    decide
  have hlen : letters.length = 16 := by decide
  rw [hlen]
  exact hall ⟨k % 16, Nat.mod_lt _ (by decide)⟩

theorem randomLetters_spec (n : Nat) :
    ∀ r : Rand, (randomLetters n r).1.length = n ∧
      ∀ c ∈ (randomLetters n r).1, inClass addressClass c = true := by
  induction n with
  | zero =>
    intro r
    simp [randomLetters]
  | succ n ih =>
    intro r
    obtain ⟨hlen, hall⟩ := ih (r.Intn letters.length).2
    refine ⟨by simp [randomLetters, hlen], ?_⟩
    intro c hc
    simp only [randomLetters, List.mem_cons] at hc
    rcases hc with hc | hc
    · rw [hc]
      exact letters_inClass _
    · exact hall c hc

theorem validateAddress_randomLetters (r : Rand) :
    validateAddress (String.mk (randomLetters 64 r).1) = true := by
  obtain ⟨hlen, hall⟩ := randomLetters_spec 64 r
  unfold validateAddress
  rw [addressRegex_iff, matchRepeat_eq_some_nil]
  exact ⟨hlen, hall⟩

/-- What a finished run of `generateWalletAddress` did. -/
theorem generateWalletAddress_some :
    ∀ (fuel : Nat) (r : Rand) (db : DB) (address : String) (r1 : Rand) (db1 : DB),
      generateWalletAddress fuel r db = some (address, r1, db1) →
      db1.transactions = db.transactions ∧
      db1.wallets = db.wallets ++ [⟨address, F64.ofNat 100⟩] ∧
      address ∉ db.wallets.map (·.Address) ∧ validateAddress address = true := by
  intro fuel
  induction fuel with
  | zero =>
    intro r db address r1 db1 h
    simp [generateWalletAddress] at h
  | succ fuel ih =>
    intro r db address r1 db1 h
    unfold generateWalletAddress at h
    simp only at h
    split at h
    · next ws hc =>
      injection h with h
      injection h with h1 h2
      injection h2 with h2 h3
      subst h1 h3
      obtain ⟨hws, hfresh⟩ := CreateWallet_ok hc
      exact ⟨rfl, hws, hfresh, validateAddress_randomLetters r⟩
    · exact ih _ _ _ _ _ h

/-- What a finished run of the provisioning loop did. -/
theorem seedLoop_some (fuel : Nat) :
    ∀ (n : Nat) (r : Rand) (db : DB) (r1 : Rand) (out : DB),
      seedLoop fuel n r db = some (r1, out) →
      out.transactions = db.transactions ∧
      ∃ added : List Wallet, out.wallets = db.wallets ++ added ∧ added.length = n ∧
        (∀ w ∈ added, w.Balance = F64.ofNat 100 ∧ validateAddress w.Address = true) ∧
        ((db.wallets.map (·.Address)).Nodup → (out.wallets.map (·.Address)).Nodup) := by
  intro n
  induction n with
  | zero =>
    intro r db r1 out h
    simp only [seedLoop, Option.some.injEq, Prod.mk.injEq] at h
    obtain ⟨_, rfl⟩ := h
    exact ⟨rfl, [], by simp, rfl, by simp, id⟩
  | succ n ih =>
    intro r db r1 out h
    unfold seedLoop at h
    split at h
    · cases h
    · next address r2 db2 hg =>
      obtain ⟨htx, hws, hfresh, hvalid⟩ := generateWalletAddress_some _ _ _ _ _ _ hg
      have htaken : CreateWallet db2.wallets ⟨address, F64.ofNat 100⟩ =
          .error "UNIQUE constraint failed: wallets.address" :=
        CreateWallet_taken (by simp [hws])
      rw [htaken] at h
      simp only at h
      obtain ⟨htx2, added, hout, hlen, hall, hnodup⟩ := ih _ _ _ _ h
      refine ⟨htx2.trans htx, ⟨address, F64.ofNat 100⟩ :: added, ?_, by simp [hlen], ?_, ?_⟩
      · rw [hout, hws]
        simp
      · intro w hw
        rcases List.mem_cons.mp hw with hw | hw
        · subst hw
          exact ⟨rfl, hvalid⟩
        · exact hall w hw
      · intro hnd
        apply hnodup
        rw [hws, List.map_append, List.nodup_append]
        refine ⟨hnd, by simp, ?_⟩
        intro a ha hb
        simp only [List.map_cons, List.map_nil, List.mem_singleton] at hb
        subst hb
        exact hfresh ha

theorem randomLetters_snd (n : Nat) :
    ∀ r : Rand, (randomLetters n r).2 = { r with pos := r.pos + n } := by
  induction n with
  | zero => intro r; rfl
  | succ n ih =>
    intro r
    simp only [randomLetters, ih, Rand.Intn]
    congr 1
    omega

theorem Rand.skip_skip (r : Rand) (k : Nat) : (r.skip 1).skip k = r.skip (k + 1) := by
  simp only [Rand.skip]
  congr 1
  omega

theorem drawnAddress_skip (r : Rand) (k : Nat) :
    drawnAddress (r.skip 1) k = drawnAddress r (k + 1) := by
  simp only [drawnAddress, Rand.skip_skip]

/-- One attempt of `generateWalletAddress`. -/
theorem generateWalletAddress_succ (fuel : Nat) (r : Rand) (db : DB) :
    generateWalletAddress (fuel + 1) r db =
      match CreateWallet db.wallets ⟨drawnAddress r 0, F64.ofNat 100⟩ with
      | .ok ws => some (drawnAddress r 0, r.skip 1, { db with wallets := ws })
      | .error _ => generateWalletAddress fuel (r.skip 1) db := by
  have h2 : (randomLetters 64 r).2 = r.skip 1 := randomLetters_snd 64 r
  have h1 : String.mk (randomLetters 64 r).1 = drawnAddress r 0 := rfl
  rw [generateWalletAddress]
  simp only [h1, h2]

/-- More attempts do not change the outcome of a generation that finished. -/
theorem generateWalletAddress_mono :
    ∀ (fuel : Nat) (r : Rand) (db : DB) (res : String × Rand × DB),
      generateWalletAddress fuel r db = some res →
      generateWalletAddress (fuel + 1) r db = some res := by
  intro fuel
  induction fuel with
  | zero =>
    intro r db res h
    simp [generateWalletAddress] at h
  | succ fuel ih =>
    intro r db res h
    rw [generateWalletAddress_succ] at h ⊢
    split
    · next ws hc => simpa [hc] using h
    · next e hc =>
      simp only [hc] at h
      exact ih _ _ _ h

/-- More attempts do not change the outcome of a provisioning loop that finished. -/
theorem seedLoop_mono (fuel : Nat) :
    ∀ (n : Nat) (r : Rand) (db : DB) (res : Rand × DB),
      seedLoop fuel n r db = some res → seedLoop (fuel + 1) n r db = some res := by
  intro n
  induction n with
  | zero =>
    intro r db res h
    simpa [seedLoop] using h
  | succ n ih =>
    intro r db res h
    unfold seedLoop at h ⊢
    split at h
    · cases h
    · next address r1 db1 hg =>
      rw [generateWalletAddress_mono _ _ _ _ hg]
      split at h
      · next ws hc =>
        simp only [hc]
        exact ih _ _ _ h
      · next e hc =>
        simp only [hc]
        exact ih _ _ _ h

theorem card_insert_sdiff_le (a : String) (S K : Finset String) :
    (insert a S \ K).card ≤ (S \ insert a K).card + 1 := by
  have hsub : insert a S \ K ⊆ insert a (S \ insert a K) := by
    intro x hx
    simp only [Finset.mem_sdiff, Finset.mem_insert] at hx ⊢
    by_cases hxa : x = a
    · exact Or.inl hxa
    · rcases hx with ⟨h1 | h1, h2⟩
      · exact absurd h1 hxa
      · exact Or.inr ⟨h1, fun h => h.elim hxa h2⟩
  exact (Finset.card_le_card hsub).trans (Finset.card_insert_le _ _)

theorem addresses_append (ws : List Wallet) (w : Wallet) :
    ((ws ++ [w]).map (·.Address)).toFinset = insert w.Address (ws.map (·.Address)).toFinset := by
  ext x
  simp only [List.map_append, List.map_cons, List.map_nil, List.mem_toFinset, List.mem_append,
    List.mem_singleton, Finset.mem_insert]
  tauto

/-- The provisioning loop finishes within `fuel` attempts per address as soon as the
next `fuel` drawn addresses hold `n` distinct ones that the store does not have. -/
theorem seedLoop_finishes :
    ∀ (limit n : Nat) (r : Rand) (db : DB) (fuel : Nat), limit ≤ fuel →
      n ≤ (((List.range limit).map (drawnAddress r)).toFinset \
            (db.wallets.map (·.Address)).toFinset).card →
      ∃ res, seedLoop fuel n r db = some res := by
  intro limit
  induction limit with
  | zero =>
    intro n r db fuel _ hn
    simp only [List.range_zero, List.map_nil, List.toFinset_nil, Finset.empty_sdiff,
      Finset.card_empty, Nat.le_zero_eq] at hn
    subst hn
    exact ⟨_, rfl⟩
  | succ limit ih =>
    intro n r db fuel hfuel hn
    cases n with
    | zero => exact ⟨_, rfl⟩
    | succ n =>
      obtain ⟨fuel, rfl⟩ : ∃ f, fuel = f + 1 := ⟨fuel - 1, by omega⟩
      have hrange : (List.range (limit + 1)).map (drawnAddress r) =
          drawnAddress r 0 :: (List.range limit).map (drawnAddress (r.skip 1)) := by
        rw [List.range_succ_eq_map, List.map_cons, List.map_map]
        congr 1
        apply List.map_congr_left
        intro k _
        exact (drawnAddress_skip r k).symm
      rw [hrange, List.toFinset_cons] at hn
      by_cases hin : drawnAddress r 0 ∈ db.wallets.map (·.Address)
      · rw [Finset.insert_sdiff_of_mem _ (List.mem_toFinset.mpr hin)] at hn
        obtain ⟨res, hres⟩ := ih (n + 1) (r.skip 1) db fuel (by omega) hn
        refine ⟨res, ?_⟩
        have hcoll : generateWalletAddress (fuel + 1) r db =
            generateWalletAddress fuel (r.skip 1) db := by
          rw [generateWalletAddress_succ, CreateWallet_taken hin]
        unfold seedLoop at hres ⊢
        rw [hcoll]
        split at hres
        · cases hres
        · split at hres
          · exact seedLoop_mono _ _ _ _ _ hres
          · exact seedLoop_mono _ _ _ _ _ hres
      · have hany :
            db.wallets.any (fun x => decide (x.Address = drawnAddress r 0)) = false := by
          simpa using hin
        have hgen : generateWalletAddress (fuel + 1) r db =
            some (drawnAddress r 0, r.skip 1,
              { db with wallets := db.wallets ++ [⟨drawnAddress r 0, F64.ofNat 100⟩] }) := by
          rw [generateWalletAddress_succ]
          simp [CreateWallet, hany]
        have hcard := card_insert_sdiff_le (drawnAddress r 0)
          ((List.range limit).map (drawnAddress (r.skip 1))).toFinset
          (db.wallets.map (·.Address)).toFinset
        rw [← addresses_append db.wallets ⟨drawnAddress r 0, F64.ofNat 100⟩] at hcard
        obtain ⟨res, hres⟩ := ih n (r.skip 1)
          { db with wallets := db.wallets ++ [⟨drawnAddress r 0, F64.ofNat 100⟩] }
          (fuel + 1) (by omega) (by simp only; omega)
        refine ⟨res, ?_⟩
        unfold seedLoop
        rw [hgen]
        simp only
        rw [CreateWallet_taken (by simp)]
        exact hres

/-- C9: on a non-empty store `seedWallets` returns at once and changes nothing.  On an
empty wallet store, a run that finishes leaves exactly 10 wallets, each holding 100
under an address `validateAddress` accepts, no two addresses equal, and leaves the log
alone; and the run does finish, within `fuel` attempts per address, for every random
source whose next `fuel` drawn addresses hold 10 distinct ones. -/
theorem seedWallets_provisions (fuel : Nat) (r : Rand) (db : DB) :
    (db.wallets ≠ [] → seedWallets fuel r db = some (r, db)) ∧
    (∀ (r1 : Rand) (out : DB), db.wallets = [] → seedWallets fuel r db = some (r1, out) →
      out.wallets.length = 10 ∧
      (∀ w ∈ out.wallets, w.Balance = F64.ofNat 100 ∧ validateAddress w.Address = true) ∧
      (out.wallets.map (·.Address)).Nodup ∧
      out.transactions = db.transactions) ∧
    (db.wallets = [] → 10 ≤ ((List.range fuel).map (drawnAddress r)).dedup.length →
      ∃ res, seedWallets fuel r db = some res) := by
  refine ⟨?_, ?_, ?_⟩
  · intro hne
    have : db.wallets.length ≠ 0 := by
      intro h0
      exact hne (List.length_eq_zero.mp h0)
    simp [seedWallets, this]
  · intro r1 out hempty h
    simp only [seedWallets, hempty, List.length_nil, if_true] at h
    obtain ⟨htx, added, hout, hlen, hall, hnodup⟩ := seedLoop_some fuel 10 r db r1 out h
    rw [hempty, List.nil_append] at hout
    refine ⟨by rw [hout, hlen], by rw [hout]; exact hall, ?_, htx⟩
    apply hnodup
    rw [hempty]
    exact List.nodup_nil
  · intro hempty hdistinct
    simp only [seedWallets, hempty, List.length_nil, if_true]
    apply seedLoop_finishes fuel 10 r db fuel (Nat.le_refl _)
    rw [hempty]
    simp only [List.map_nil, List.toFinset_nil, Finset.sdiff_empty, List.card_toFinset]
    exact hdistinct

/-- C9 for the source `sampleRand`: its next 19 drawn addresses hold 10 distinct ones,
so the run finishes; it leaves the 10 wallets of `seededDB`, and it leaves a non-empty
store as it is. -/
theorem seedWallets_provisions_witness :
    seedWallets 19 sampleRand sampleDB = some (sampleRand, sampleDB) ∧
    (seededDB.wallets.length = 10 ∧
      (∀ w ∈ seededDB.wallets,
        w.Balance = F64.ofNat 100 ∧ validateAddress w.Address = true) ∧
      (seededDB.wallets.map (·.Address)).Nodup ∧
      seededDB.transactions = []) ∧
    (∃ res, seedWallets 19 sampleRand ⟨[], []⟩ = some res) :=
  ⟨(seedWallets_provisions 19 sampleRand sampleDB).1 (by decide),
   (seedWallets_provisions 19 sampleRand ⟨[], []⟩).2.1 { sampleRand with pos := 1216 }
      seededDB rfl rfl,
   (seedWallets_provisions 19 sampleRand ⟨[], []⟩).2.2 rfl (by decide)⟩

/-! ## Non-negative balances -/

theorem sendTransaction_nonneg {now : Nat} {fault : Fault} {tx : Transaction} {db : DB}
    (hkey : Keyed db) (hnn : NonNegative db) (hjson : F64.isFinite tx.Amount = true) :
    NonNegative (sendTransaction now fault (some tx) db).2 := by
  rcases sendTransaction_cases now fault (some tx) db with ⟨m, hm⟩ | ⟨saved, out, hres⟩
  · rw [hm]
    exact hnn
  · obtain ⟨_, _, hne, hle, hu⟩ := sendTransaction_ok hres
    obtain ⟨sender, receiver, log, hs, hlt, hr, _, _, hout⟩ := transferUnit_ok hu
    simp only at hs hr hout hlt
    rw [hres]
    simp only
    rw [hout]
    have hs1 : First db.wallets sender.Address = some sender := by
      rw [First_address hs]; exact hs
    have hsub : ∀ v ∈ db.wallets, v.Address = sender.Address →
        F64.le F64.zero (F64.sub v.Balance tx.Amount) = true := by
      intro v hv hva
      have hfound := First_eq_of_mem hkey hv
      rw [hva, hs1] at hfound
      injection hfound with hfound
      subst hfound
      exact F64.sub_nonneg (hnn _ hv) hjson hlt
    intro w hw
    simp only at hw
    refine @UpdateBalance_nonneg (UpdateBalance db.wallets sender.Address
      (fun b => F64.sub b tx.Amount)) _ _ ?_ ?_ w hw
    · exact UpdateBalance_nonneg hnn hsub
    · intro v hv _
      exact F64.add_nonneg (UpdateBalance_nonneg hnn hsub v hv) hjson hle

/-- C2: on a store whose wallets all have `balance >= 0` (addresses being the primary
key), every operation of the service leaves all balances `>= 0`: `sendTransaction` for
any request, accepted or rejected, `getBalance`, `getLastTransactions` and
`seedWallets`; and a transfer whose amount exceeds the sender's balance is answered
with an error and leaves the store as it was.  The amount of a request is a finite
number (JSON carries neither NaN nor an infinity). -/
theorem nonNegative_preserved (now : Nat) (fault : Fault) (body : Option Transaction)
    (db : DB) (address countParam : String) (fuel : Nat) (r : Rand)
    (hkey : Keyed db) (hnn : NonNegative db)
    (hjson : ∀ tx, body = some tx → F64.isFinite tx.Amount = true) :
    NonNegative (sendTransaction now fault body db).2 ∧
    NonNegative (getBalance address db).2 ∧
    NonNegative (getLastTransactions countParam db).2 ∧
    (∀ out, seedWallets fuel r db = some out → NonNegative out.2) ∧
    (∀ tx sender, body = some tx → First db.wallets tx.From = some sender →
      F64.lt sender.Balance tx.Amount = true →
      ∃ message, sendTransaction now fault body db = (.error 400 message, db)) := by
  refine ⟨?_, ?_, ?_, ?_, ?_⟩
  · cases body with
    | none => exact hnn
    | some tx => exact sendTransaction_nonneg hkey hnn (hjson tx rfl)
  · unfold getBalance
    split
    · exact hnn
    · split <;> exact hnn
  · unfold getLastTransactions
    split <;> exact hnn
  · intro out h
    obtain ⟨r1, out⟩ := out
    unfold seedWallets at h
    split at h
    · obtain ⟨_, added, hout, _, hall, _⟩ := seedLoop_some fuel 10 r db r1 out h
      intro w hw
      simp only at hw
      rw [hout] at hw
      rcases List.mem_append.mp hw with hw | hw
      · exact hnn w hw
      · rw [(hall w hw).1]
        decide
    · injection h with h
      injection h with h1 h2
      subst h2
      exact hnn
  · intro tx sender hb hs hlt
    subst hb
    unfold sendTransaction
    simp only
    split
    · exact ⟨_, rfl⟩
    · split
      · exact ⟨_, rfl⟩
      · split
        · exact ⟨_, rfl⟩
        · refine ⟨"Insufficient funds", ?_⟩
          simp [DB.Transaction, transferUnit, hs, hlt]

/-- C2 at two requests against `sampleDB`: the transfer of the whole balance 100 is
accepted and leaves the balances 0, 200 and 100, all non-negative; the request for 150
from a wallet holding 100 is answered with an error and leaves the store as it was. -/
theorem nonNegative_preserved_witness :
    (sendTransaction 7 Fault.never (some ⟨0, addrX, addrY, F64.ofNat 100, 0⟩) sampleDB).2 =
      ⟨[⟨addrX, F64.ofNat 0⟩, ⟨addrY, F64.ofNat 200⟩, ⟨addrZ, F64.ofNat 100⟩],
       [⟨1, addrX, addrY, F64.ofNat 100, 7⟩]⟩ ∧
    NonNegative
      (sendTransaction 7 Fault.never (some ⟨0, addrX, addrY, F64.ofNat 100, 0⟩) sampleDB).2 ∧
    (∃ message,
      sendTransaction 7 Fault.never (some ⟨0, addrX, addrY, F64.ofNat 150, 0⟩) sampleDB =
        (.error 400 message, sampleDB)) :=
  ⟨by decide,
   (nonNegative_preserved 7 Fault.never (some ⟨0, addrX, addrY, F64.ofNat 100, 0⟩) sampleDB
      addrX "5" 2 sampleRand (by decide) (by decide)
      (fun tx h => by injection h with h; subst h; decide)).1,
   (nonNegative_preserved 7 Fault.never (some ⟨0, addrX, addrY, F64.ofNat 150, 0⟩) sampleDB
      addrX "5" 2 sampleRand (by decide) (by decide)
      (fun tx h => by injection h with h; subst h; decide)).2.2.2.2
      ⟨0, addrX, addrY, F64.ofNat 150, 0⟩ ⟨addrX, F64.ofNat 100⟩ rfl (by decide) (by decide)⟩

end Ledger
